import Mathlib

/-!
Verification development for the build-graph compiler (`cutekit/builder.py`).

Paths are modelled as lists of path segments (`List String`), matching the
semantics of Python `pathlib.Path` whose equality and arithmetic operate on
parts.  `pathStr` renders a segment list the way `str(Path(...))` joins parts
with a slash.  Mutating writer calls (`ninja.Writer.build`) are modelled by
accumulating `Edge` values; raised exceptions are modelled with `Except`.
-/

namespace Builder

/-- Render a segment path the way `str(Path(...))` does; a path with no
parts renders as the current directory. -/
def pathStr (p : List String) : String :=
  if p.isEmpty then "." else String.intercalate "/" p

/-- Property values accepted in `props` mappings: boolean, string or number. -/
inductive PropValue where
  | bool (b : Bool)
  | str (s : String)
  | num (n : Int)
deriving DecidableEq, Repr

/-- Python `str(v)` for a non-boolean property value. -/
def propStr : PropValue → String
  | .bool b => if b then "True" else "False"
  | .str s => s
  | .num n => toString n

/-- Component kinds (`model.Kind`): `LIB`, `EXE`, and other variants. -/
inductive Kind where
  | lib
  | exe
  | other
deriving DecidableEq, Repr

/-- A tool binding of a target (`model.Target.tools[...]`). -/
structure Tool where
  cmd : String
  args : List String
  files : List String

/-- A build target (`model.Target`).  `builddir` is kept as path segments;
`tools` is total because every rule used by the generator is declared. -/
structure Target where
  id : String
  builddir : List String
  hashid : String
  props : List (String × PropValue)
  tools : String → Tool

/-- A component (`model.Component`).  `resolved` maps a target id to the
ordered dependency id list computed by the external resolver. -/
structure Component where
  id : String
  type : Kind
  dirname : List String
  subdirs : List String
  props : List (String × PropValue)
  resolved : List (String × List String)

/-- The dependency id list resolved for a target, when present. -/
def Component.resolvedFor (c : Component) (targetId : String) : Option (List String) :=
  c.resolved.lookup targetId

/-- Read-only registry view (`model.Registry`): enumeration of the components
enabled for a target, and lookup by id. -/
structure Registry where
  iterEnabled : Target → List Component
  lookup : String → Option Component

/-- One emitted build-graph edge (`ninja.Writer.build`). -/
structure Edge where
  out : String
  rule : String
  inputs : List String
  implicit : List String
  orderOnly : List String
deriving DecidableEq, Repr

/-- `aggregateCincs`: include directories derived from the enabled components,
rendered as `-I` flags.  A component whose props contain the key
`cpp-root-include` contributes its own directory; otherwise a library
contributes the parent of its directory. -/
def aggregateCincs (target : Target) (registry : Registry) : List String :=
  ((registry.iterEnabled target).filterMap (fun c =>
    if (c.props.lookup "cpp-root-include").isSome then
      some (pathStr c.dirname)
    else if c.type = Kind.lib then
      some (pathStr c.dirname.dropLast)
    else
      none)).map (fun i => "-I" ++ i)

/-- `sanatize` from `aggregateCdefs`: lowercase, then replace spaces, hyphens
and dots by underscores. -/
def sanatize (s : String) : String :=
  (((s.toLower).replace " " "_").replace "-" "_").replace "." "_"

/-- `aggregateCdefs`: preprocessor define flags derived from `target.props`. -/
def aggregateCdefs (target : Target) : List String :=
  target.props.flatMap (fun kv =>
    match kv.2 with
    | .bool b =>
        if b then ["-D__ck_" ++ sanatize kv.1 ++ "__"] else []
    | v =>
        ["-D__ck_" ++ sanatize kv.1 ++ "_" ++ sanatize (propStr v) ++ "__",
         "-D__ck_" ++ sanatize kv.1 ++ "_value=" ++ propStr v])

/-- `buildpath(target, component, path) = Path(target.builddir) / component.id / path`. -/
def buildpath (target : Target) (component : Component) (path : List String) : List String :=
  target.builddir ++ [component.id] ++ path

/-- Split a file name at its last dot, Python `PurePath` style: the result is
`some (stem, suffix)` only when the last dot is neither the first nor the last
character; otherwise the name has no suffix. -/
def lastDotSplit (cs : List Char) : Option (List Char × List Char) :=
  match cs.reverse.dropWhile (fun ch => ch ≠ '.') with
  | [] => none
  | h :: restTail =>
      if restTail.isEmpty || (cs.reverse.takeWhile (fun ch => ch ≠ '.')).isEmpty then none
      else some (restTail.reverse, h :: (cs.reverse.takeWhile (fun ch => ch ≠ '.')).reverse)

/-- Stem and suffix of a file name, when the name has a suffix. -/
def nameSplit (s : String) : Option (String × String) :=
  match lastDotSplit s.data with
  | none => none
  | some (st, su) => some (String.mk st, String.mk su)

/-- Python `Path(name).stem`-like part used by `with_suffix`. -/
def nameStem (s : String) : String :=
  match nameSplit s with
  | none => s
  | some (st, _) => st

/-- Python `Path(name).suffix`: empty when the name has no suffix. -/
def nameSuffix (s : String) : String :=
  match nameSplit s with
  | none => ""
  | some (_, su) => su

/-- Python `name` after `with_suffix(".o")`. -/
def withSuffixO (s : String) : String := nameStem s ++ ".o"

/-- Apply a function to the last segment of a path. -/
def mapLast (f : String → String) : List String → List String
  | [] => []
  | [x] => [f x]
  | x :: y :: xs => x :: mapLast f (y :: xs)

/-- Intermediate object path of one source file inside `compile`:
`buildpath(target, component, "obj") / rel.with_suffix(".o")` where `rel` is
the source path relative to the component root. -/
def objpath (target : Target) (component : Component) (src : List String) : List String :=
  buildpath target component ("obj" :: mapLast withSuffixO (src.drop component.dirname.length))

/-- The compile edge emitted for one source file. -/
def compileEdge (target : Target) (component : Component) (rule : String)
    (src : List String) : Edge :=
  { out := pathStr (objpath target component src)
    rule := rule
    inputs := [pathStr src]
    implicit := []
    orderOnly := (target.tools rule).files }

/-- `compile`: one edge per source file; returns the edges and the object
paths accumulated in `res`. -/
def compile (target : Target) (component : Component) (rule : String)
    (srcs : List (List String)) : List Edge × List String :=
  (srcs.map (compileEdge target component rule),
   srcs.map (fun src => pathStr (objpath target component src)))

/-- `compileRes`: mirror one resource file under `<root>/res/` with the fixed
copy rule. -/
def compileRes (target : Target) (component : Component)
    (resFiles : List (List String)) : List Edge × List String :=
  let dest := fun r =>
    pathStr (buildpath target component
      ("res" :: r.drop (component.dirname ++ ["res"]).length))
  (resFiles.map (fun r =>
      { out := dest r, rule := "cp", inputs := [pathStr r],
        implicit := [], orderOnly := [] }),
   resFiles.map dest)

/-- `outfile` as a segment path: `lib/<id>.a` for libraries, `bin/<id>.out`
otherwise. -/
def outfilePath (target : Target) (component : Component) : List String :=
  if component.type = Kind.lib then
    buildpath target component ["lib", component.id ++ ".a"]
  else
    buildpath target component ["bin", component.id ++ ".out"]

/-- `outfile` as the string the Python function returns. -/
def outfile (target : Target) (component : Component) : String :=
  pathStr (outfilePath target component)

/-- Body of the `collectLibs` loop over the resolved dependency ids. -/
def collectLibsAux (registry : Registry) (target : Target) (component : Component) :
    List String → Except String (List String)
  | [] => .ok []
  | r :: rest =>
    match registry.lookup r with
    | none => .error "assertion failed: resolver promised the component exists"
    | some req =>
      if r = component.id then
        collectLibsAux registry target component rest
      else if req.type = Kind.lib then
        match collectLibsAux registry target component rest with
        | .error m => .error m
        | .ok res => .ok (outfile target req :: res)
      else
        .error ("Component " ++ r ++ " is not a library")

/-- `collectLibs`: validate and collect the dependency artifacts of a
component for a target; a missing resolution entry is a contract violation. -/
def collectLibs (registry : Registry) (target : Target) (component : Component) :
    Except String (List String) :=
  match component.resolvedFor target.id with
  | none => .error "contract violation: component not resolved for target"
  | some deps => collectLibsAux registry target component deps

/-- `link`: compile every source bucket, materialize resources, collect the
dependency artifacts, then emit the terminal archive/link edge.  Discovered
sources and resources are passed in (discovery is an external collaborator).
Returns the emitted edges, and either the output path or the raised error. -/
def link (registry : Registry) (target : Target) (component : Component)
    (srcsC srcsCxx srcsAs resFiles : List (List String)) :
    List Edge × Except String String :=
  let p1 := compile target component "cc" srcsC
  let p2 := compile target component "cxx" srcsCxx
  let p3 := compile target component "as" srcsAs
  let pr := compileRes target component resFiles
  let objs := p1.2 ++ p2.2 ++ p3.2
  let es := p1.1 ++ p2.1 ++ p3.1 ++ pr.1
  match collectLibs registry target component with
  | .error m => (es, .error m)
  | .ok libs =>
    let out := outfile target component
    if component.type = Kind.lib then
      (es ++ [{ out := out, rule := "ar", inputs := objs,
                implicit := pr.2, orderOnly := [] }], .ok out)
    else
      (es ++ [{ out := out, rule := "ld", inputs := objs ++ libs,
                implicit := pr.2, orderOnly := [] }], .ok out)

/-- A built product: artifact path with its originating target and component. -/
structure Product where
  path : List String
  target : Target
  component : Component

/-- The `components` argument of `build`: `None`, a single component, or a
list of components. -/
inductive BuildReq where
  | all
  | one (c : Component)
  | many (cs : List Component)

/-- What one `build` invocation does besides generating the graph: where the
graph file is written, the returned products, and the executor command line. -/
structure BuildResult where
  graphPath : List String
  products : List Product
  execArgv : List String

/-- `build`: write the graph, select full or scoped build, invoke the external
executor, and return one `Product` per selected component. -/
def build (target : Target) (registry : Registry) (req : BuildReq) : BuildResult :=
  let ninjaPath := target.builddir ++ ["build.ninja"]
  let sel : Bool × List Component :=
    match req with
    | .all => (true, registry.iterEnabled target)
    | .one c => (false, [c])
    | .many cs => (false, cs)
  let products := sel.2.map (fun c =>
    { path := outfilePath target c, target := target, component := c })
  let outs := products.map (fun p => pathStr p.path)
  { graphPath := ninjaPath
    products := products
    execArgv :=
      if sel.1 then ["ninja", "-v", "-f", pathStr ninjaPath]
      else ["ninja", "-v", "-f", pathStr ninjaPath] ++ outs }

/-- `buildCmd`: look the requested component up and build.  A failed lookup
yields `None`, which flows into `build` as its `components = None` case. -/
def buildCmd (registry : Registry) (target : Target) (componentSpec : Option String) :
    Except String BuildResult :=
  match componentSpec with
  | none => .error "No component specified"
  | some spec =>
    match registry.lookup spec with
    | none => .ok (build target registry BuildReq.all)
    | some c => .ok (build target registry (BuildReq.one c))

/-- `runCmd` up to the point the product is built: unlike `buildCmd` it
rejects a failed lookup before building. -/
def runCmd (registry : Registry) (target : Target) (componentSpec : Option String) :
    Except String BuildResult :=
  match componentSpec with
  | none => .error "No component specified"
  | some spec =>
    match registry.lookup spec with
    | none => .error ("Component " ++ spec ++ " not found")
    | some c => .ok (build target registry (BuildReq.one c))

/-- The flag set the spec prescribes for one `props` entry (claim C3): one
presence flag for a true boolean, nothing for a false boolean, and for any
other value a presence flag from the sanitized key and sanitized value plus a
value-carrying flag. -/
def cdefCase (k : String) (v : PropValue) (s : String) : Prop :=
  match v with
  | .bool true => s = "-D__ck_" ++ sanatize k ++ "__"
  | .bool false => False
  | v => s = "-D__ck_" ++ sanatize k ++ "_" ++ sanatize (propStr v) ++ "__" ∨
         s = "-D__ck_" ++ sanatize k ++ "_value=" ++ propStr v

/-- The include directory the spec prescribes for one component (claim C9):
its own directory when marked as an include root, the parent of its directory
when it is a library, nothing otherwise. -/
def cincCase (c : Component) (d : String) : Prop :=
  if (c.props.lookup "cpp-root-include").isSome then d = pathStr c.dirname
  else if c.type = Kind.lib then d = pathStr c.dirname.dropLast
  else False

/-! Concrete fixtures used by the closed evaluation theorems. -/

/-- A concrete tool binding. -/
def demoTool : Tool :=
  { cmd := "gcc", args := ["-O2"], files := ["toolchain/gcc.json"] }

/-- A concrete target with builddir `build/demo`. -/
def demoTarget : Target :=
  { id := "demo", builddir := ["build", "demo"], hashid := "cafe",
    props := [("arch", PropValue.str "x86-64"), ("debug", PropValue.bool true)],
    tools := fun _ => demoTool }

/-- A second concrete target with a distinct builddir. -/
def demoTargetB : Target :=
  { id := "demob", builddir := ["build", "demob"], hashid := "beef",
    props := [], tools := fun _ => demoTool }

/-- A library component. -/
def compCore : Component :=
  { id := "core", type := Kind.lib, dirname := ["core"], subdirs := [],
    props := [], resolved := [("demo", ["core"])] }

/-- An executable component depending on the library. -/
def compApp : Component :=
  { id := "app", type := Kind.exe, dirname := ["app"], subdirs := [],
    props := [], resolved := [("demo", ["app", "core"])] }

/-- An executable component that is wrongly used as a link dependency. -/
def compBad : Component :=
  { id := "tool", type := Kind.exe, dirname := ["tool"], subdirs := [],
    props := [], resolved := [("demo", [])] }

/-- An executable whose resolved dependency list contains the non-library
component `tool`. -/
def compUser : Component :=
  { id := "user", type := Kind.exe, dirname := ["user"], subdirs := [],
    props := [], resolved := [("demo", ["user", "tool"])] }

/-- A concrete registry enabling the library and the executable. -/
def demoRegistry : Registry :=
  { iterEnabled := fun _ => [compCore, compApp],
    lookup := fun s =>
      if s = "core" then some compCore
      else if s = "app" then some compApp
      else if s = "tool" then some compBad
      else if s = "user" then some compUser
      else none }

/-- A registry with no enabled components. -/
def emptyRegistry : Registry :=
  { iterEnabled := fun _ => [], lookup := fun _ => none }

/-! Helper lemmas. -/

theorem string_append_cancel_right {s t u : String} (h : s ++ u = t ++ u) : s = t := by
  cases s; cases t; cases u
  simp only [String.ext_iff] at h ⊢
  simpa using List.append_cancel_right h

theorem lastDotSplit_append {cs st su : List Char}
    (h : lastDotSplit cs = some (st, su)) : st ++ su = cs := by
  unfold lastDotSplit at h
  split at h
  · exact absurd h (by simp)
  case h_2 x rt hd =>
    split at h
    · exact absurd h (by simp)
    case isFalse hb =>
      simp only [Option.some.injEq, Prod.mk.injEq] at h
      obtain ⟨h1, h2⟩ := h
      subst h1
      subst h2
      have hta := List.takeWhile_append_dropWhile (fun ch => ch ≠ '.') cs.reverse
      rw [hd] at hta
      generalize hA : List.takeWhile (fun ch => ch ≠ '.') cs.reverse = A
      rw [hA] at hta
      have hcs : cs = (A ++ x :: rt).reverse := by
        rw [hta, List.reverse_reverse]
      rw [hcs, List.reverse_append, List.reverse_cons, List.append_assoc]
      simp

theorem nameStem_append_nameSuffix (s : String) : nameStem s ++ nameSuffix s = s := by
  unfold nameStem nameSuffix nameSplit
  cases h : lastDotSplit s.data with
  | none => simp
  | some p =>
    obtain ⟨st, su⟩ := p
    simp only []
    have hd := lastDotSplit_append h
    apply String.ext
    rw [String.data_append]
    exact hd

theorem withSuffixO_inj {a b : String} (hsuf : nameSuffix a = nameSuffix b)
    (h : withSuffixO a = withSuffixO b) : a = b := by
  have hst : nameStem a = nameStem b := string_append_cancel_right h
  calc a = nameStem a ++ nameSuffix a := (nameStem_append_nameSuffix a).symm
    _ = nameStem b ++ nameSuffix b := by rw [hst, hsuf]
    _ = b := nameStem_append_nameSuffix b

theorem mapLast_length (f : String → String) :
    ∀ l : List String, (mapLast f l).length = l.length
  | [] => rfl
  | [_] => rfl
  | x :: y :: xs => by
    simp only [mapLast, List.length_cons]
    rw [mapLast_length f (y :: xs)]
    simp

theorem getLastD_singleton (x d : String) : [x].getLastD d = x := by
  simp [List.getLastD_eq_getLast?]

theorem getLastD_cons_cons (a b d : String) (l : List String) :
    (a :: b :: l).getLastD d = (b :: l).getLastD d := by
  rw [List.getLastD_eq_getLast?, List.getLastD_eq_getLast?, List.getLast?_cons_cons]

theorem getLastD_append_of_ne_nil {l m : List String} (d : String) (h : m ≠ []) :
    (l ++ m).getLastD d = m.getLastD d := by
  rw [List.getLastD_eq_getLast?, List.getLastD_eq_getLast?, List.getLast?_append]
  cases hm : m.getLast? with
  | none => exact absurd (List.getLast?_eq_none_iff.mp hm) h
  | some x => rfl

theorem mapLast_withSuffixO_inj :
    ∀ l1 l2 : List String, l1 ≠ [] → l2 ≠ [] →
      nameSuffix (l1.getLastD "") = nameSuffix (l2.getLastD "") →
      mapLast withSuffixO l1 = mapLast withSuffixO l2 → l1 = l2
  | [], _, h1, _, _, _ => absurd rfl h1
  | _ :: _, [], _, h2, _, _ => absurd rfl h2
  | [x], [y], _, _, hsuf, heq => by
    simp only [mapLast, List.cons.injEq, and_true] at heq
    rw [getLastD_singleton, getLastD_singleton] at hsuf
    rw [withSuffixO_inj hsuf heq]
  | [x], y1 :: y2 :: ys, _, _, _, heq => by
    exfalso
    have hlen := congrArg List.length heq
    rw [mapLast_length, mapLast_length] at hlen
    simp at hlen
  | x1 :: x2 :: xs, [y], _, _, _, heq => by
    exfalso
    have hlen := congrArg List.length heq
    rw [mapLast_length, mapLast_length] at hlen
    simp at hlen
  | x1 :: x2 :: xs, y1 :: y2 :: ys, _, _, hsuf, heq => by
    simp only [mapLast, List.cons.injEq] at heq
    obtain ⟨hx, hrest⟩ := heq
    have hs2 : nameSuffix ((x2 :: xs).getLastD "") = nameSuffix ((y2 :: ys).getLastD "") := by
      rw [← getLastD_cons_cons x1, ← getLastD_cons_cons y1]
      exact hsuf
    have htail := mapLast_withSuffixO_inj (x2 :: xs) (y2 :: ys)
      (List.cons_ne_nil x2 xs) (List.cons_ne_nil y2 ys) hs2 hrest
    rw [hx, htail]

theorem outfilePath_decomp (target : Target) (component : Component) :
    ∃ d f, outfilePath target component = target.builddir ++ [component.id, d, f] := by
  unfold outfilePath buildpath
  by_cases h : component.type = Kind.lib
  · exact ⟨"lib", component.id ++ ".a", by simp [h]⟩
  · exact ⟨"bin", component.id ++ ".out", by simp [h]⟩

/-! Claim theorems. -/

/-- Claim C6: the final artifact path is `<builddir>/<componentId>/lib/<componentId>.a`
for a library component and `<builddir>/<componentId>/bin/<componentId>.out` for a
component of any non-library kind. -/
theorem outfile_shape (target : Target) (component : Component) :
    (component.type = Kind.lib →
      outfilePath target component =
        target.builddir ++ [component.id, "lib", component.id ++ ".a"]) ∧
    (component.type ≠ Kind.lib →
      outfilePath target component =
        target.builddir ++ [component.id, "bin", component.id ++ ".out"]) := by
  constructor
  · intro h
    simp [outfilePath, buildpath, h]
  · intro h
    simp [outfilePath, buildpath, h]

/-- Witness for C6 on the concrete library and executable fixtures. -/
theorem outfile_shape_witness :
    outfilePath demoTarget compCore = ["build", "demo", "core", "lib", "core.a"] ∧
    outfilePath demoTarget compApp = ["build", "demo", "app", "bin", "app.out"] :=
  ⟨(outfile_shape demoTarget compCore).1 rfl,
   (outfile_shape demoTarget compApp).2 (by decide)⟩

/-- Claim C5: under unique component ids per target and distinct builddirs per
target, distinct (target, component) pairs have distinct final artifact paths. -/
theorem outfilePath_unique (t1 t2 : Target) (c1 c2 : Component)
    (hbd : t1 ≠ t2 → t1.builddir ≠ t2.builddir)
    (hid : t1 = t2 → c1 ≠ c2 → c1.id ≠ c2.id)
    (hne : (t1, c1) ≠ (t2, c2)) :
    outfilePath t1 c1 ≠ outfilePath t2 c2 := by
  obtain ⟨d1, f1, hd1⟩ := outfilePath_decomp t1 c1
  obtain ⟨d2, f2, hd2⟩ := outfilePath_decomp t2 c2
  intro heq
  rw [hd1, hd2] at heq
  by_cases ht : t1 = t2
  · subst ht
    have hcc : c1 ≠ c2 := by
      intro hc
      exact hne (by rw [hc])
    have htl := List.append_cancel_left heq
    have : c1.id = c2.id := by
      injection htl
    exact hid rfl hcc this
  · have := (List.append_inj' heq (by simp)).1
    exact hbd ht this

/-- Witness for C5: the same component built for two targets with distinct
builddirs has distinct artifact paths. -/
theorem outfilePath_unique_witness :
    outfilePath demoTarget compCore ≠ outfilePath demoTargetB compCore :=
  outfilePath_unique demoTarget demoTargetB compCore compCore
    (fun _ => by decide)
    (fun h _ => absurd (congrArg Target.builddir h) (by decide))
    (fun h => absurd (congrArg (fun p => p.1.builddir) h) (by decide))

/-- Claim C3: a flag is returned by `aggregateCdefs` exactly when some entry of
`target.props` prescribes it — one presence flag for a true boolean, nothing
for a false boolean, and for a non-boolean value the sanitized presence flag
plus the value-carrying flag, with key and value sanitized identically by
`sanatize` (lowercase, then spaces, hyphens and dots to underscores). -/
theorem aggregateCdefs_spec (target : Target) (s : String) :
    s ∈ aggregateCdefs target ↔ ∃ kv ∈ target.props, cdefCase kv.1 kv.2 s := by
  unfold aggregateCdefs
  rw [List.mem_flatMap]
  constructor
  · rintro ⟨kv, hkv, hs⟩
    refine ⟨kv, hkv, ?_⟩
    obtain ⟨k, v⟩ := kv
    cases v with
    | bool b =>
      cases b with
      | false => simp [cdefCase] at hs ⊢
      | true => simpa [cdefCase] using hs
    | str sv => simpa [cdefCase] using hs
    | num n => simpa [cdefCase] using hs
  · rintro ⟨kv, hkv, hs⟩
    refine ⟨kv, hkv, ?_⟩
    obtain ⟨k, v⟩ := kv
    cases v with
    | bool b =>
      cases b with
      | false => simp [cdefCase] at hs
      | true => simpa [cdefCase] using hs
    | str sv => simpa [cdefCase] using hs
    | num n => simpa [cdefCase] using hs

/-- Claim C9: a flag is returned by `aggregateCincs` exactly when some enabled
component contributes its directory (include root) or its parent directory
(library), rendered as a `-I` flag; and an empty registry yields the empty
set. -/
theorem aggregateCincs_spec (target : Target) (registry : Registry) :
    (∀ s, s ∈ aggregateCincs target registry ↔
      ∃ c ∈ registry.iterEnabled target, ∃ d, cincCase c d ∧ s = "-I" ++ d) ∧
    (registry.iterEnabled target = [] → aggregateCincs target registry = []) := by
  constructor
  · intro s
    unfold aggregateCincs
    rw [List.mem_map]
    constructor
    · rintro ⟨d, hd, hs⟩
      rw [List.mem_filterMap] at hd
      obtain ⟨c, hc, hcd⟩ := hd
      refine ⟨c, hc, d, ?_, hs.symm⟩
      unfold cincCase
      split
      case isTrue h =>
        rw [if_pos h] at hcd
        exact (Option.some.injEq _ _).mp hcd |>.symm
      case isFalse h =>
        rw [if_neg h] at hcd
        split
        case isTrue h2 =>
          rw [if_pos h2] at hcd
          exact (Option.some.injEq _ _).mp hcd |>.symm
        case isFalse h2 =>
          rw [if_neg h2] at hcd
          cases hcd
    · rintro ⟨c, hc, d, hcase, hs⟩
      refine ⟨d, ?_, hs.symm⟩
      rw [List.mem_filterMap]
      refine ⟨c, hc, ?_⟩
      unfold cincCase at hcase
      split at hcase
      case isTrue h => rw [if_pos h, hcase]
      case isFalse h =>
        rw [if_neg h]
        split at hcase
        case isTrue h2 => rw [if_pos h2, hcase]
        case isFalse h2 => cases hcase
  · intro h
    unfold aggregateCincs
    rw [h]
    rfl

/-- Witness for C9 at a concrete target and the empty registry. -/
theorem aggregateCincs_spec_witness :
    aggregateCincs demoTarget emptyRegistry = [] :=
  (aggregateCincs_spec demoTarget emptyRegistry).2 rfl

/-- Claim C2: with no requested component, `build` returns one `Product` per
enabled component and invokes the executor without artifact arguments, leaving
it on the graph's default aggregate goal; with a single component or an
explicit list it returns one `Product` per requested component and passes
exactly those components' final artifact paths to the executor. -/
theorem build_scope (target : Target) (registry : Registry) :
    ((build target registry BuildReq.all).products =
        (registry.iterEnabled target).map (fun c =>
          { path := outfilePath target c, target := target, component := c : Product }) ∧
      (build target registry BuildReq.all).execArgv =
        ["ninja", "-v", "-f", pathStr (target.builddir ++ ["build.ninja"])]) ∧
    (∀ c, (build target registry (BuildReq.one c)).products =
        [{ path := outfilePath target c, target := target, component := c }] ∧
      (build target registry (BuildReq.one c)).execArgv =
        ["ninja", "-v", "-f", pathStr (target.builddir ++ ["build.ninja"]),
         pathStr (outfilePath target c)]) ∧
    (∀ cs, (build target registry (BuildReq.many cs)).products =
        cs.map (fun c =>
          { path := outfilePath target c, target := target, component := c }) ∧
      (build target registry (BuildReq.many cs)).execArgv =
        ["ninja", "-v", "-f", pathStr (target.builddir ++ ["build.ninja"])] ++
          cs.map (fun c => pathStr (outfilePath target c))) := by
  refine ⟨⟨rfl, rfl⟩, fun c => ⟨rfl, rfl⟩, fun cs => ⟨rfl, ?_⟩⟩
  simp [build]

/-- Claim C10: `build` with an explicit empty component list writes the graph
to the same file, returns no products, and invokes the executor with the very
same command line as a full build, so the executor runs the default aggregate
goal. -/
theorem build_empty_list (target : Target) (registry : Registry) :
    (build target registry (BuildReq.many [])).graphPath =
        (build target registry BuildReq.all).graphPath ∧
    (build target registry (BuildReq.many [])).products = [] ∧
    (build target registry (BuildReq.many [])).execArgv =
        (build target registry BuildReq.all).execArgv := by
  refine ⟨rfl, rfl, ?_⟩
  simp [build]

/-- Claim C7 (code bug): `buildCmd` invoked with a component id absent from the
registry does not abort; the `None` returned by the lookup flows into `build`
as its `components = None` case, so a full build of every enabled component is
performed.  `runCmd` by contrast rejects the unknown id before building. -/
theorem buildCmd_missing_component_builds_everything :
    buildCmd demoRegistry demoTarget (some "nosuch") =
      .ok (build demoTarget demoRegistry BuildReq.all) ∧
    (build demoTarget demoRegistry BuildReq.all).execArgv =
      ["ninja", "-v", "-f", "build/demo/build.ninja"] ∧
    (build demoTarget demoRegistry BuildReq.all).products.map (fun p => pathStr p.path) =
      ["build/demo/core/lib/core.a", "build/demo/app/bin/app.out"] ∧
    runCmd demoRegistry demoTarget (some "nosuch") =
      .error "Component nosuch not found" :=
  ⟨rfl, rfl, rfl, rfl⟩

theorem compile_filter_not_mem (target : Target) (component : Component) (rule : String)
    (srcs : List (List String)) (s : String) (h : s ∉ srcs.map pathStr) :
    (srcs.map (compileEdge target component rule)).filter
      (fun e => e.inputs = [s]) = [] := by
  induction srcs with
  | nil => rfl
  | cons a as ih =>
    simp only [List.map_cons, List.mem_cons, not_or] at h
    obtain ⟨h1, h2⟩ := h
    rw [List.map_cons, List.filter_cons]
    have hpred : ((compileEdge target component rule a).inputs = [s]) = False := by
      simp [compileEdge]
      intro hc
      exact h1 hc.symm
    simp only [hpred]
    simpa using ih h2

/-- Claim C4: for every discovered source of a component, the bucket's
`compile` call emits exactly one edge whose explicit input is that source;
its output is the source's path relative to the component root mirrored under
`<builddir>/<componentId>/obj/` with the extension replaced by `.o`, it is
bound to the bucket's rule, and it carries an order-only dependency on that
rule's toolchain file set. -/
theorem compile_edge_spec (target : Target) (component : Component) (rule : String)
    (srcs : List (List String)) (src : List String)
    (hnd : (srcs.map pathStr).Nodup) (hmem : src ∈ srcs)
    (hpre : src.take component.dirname.length = component.dirname) :
    (compile target component rule srcs).1.filter
        (fun e => e.inputs = [pathStr src]) =
      [{ out := pathStr (target.builddir ++ [component.id, "obj"] ++
            mapLast withSuffixO (src.drop component.dirname.length))
         rule := rule
         inputs := [pathStr src]
         implicit := []
         orderOnly := (target.tools rule).files }] ∧
    component.dirname ++ src.drop component.dirname.length = src := by
  constructor
  · show (srcs.map (compileEdge target component rule)).filter _ = _
    induction srcs with
    | nil => cases hmem
    | cons a as ih =>
      rw [List.map_cons] at hnd
      have hnd2 := List.nodup_cons.mp hnd
      rcases List.mem_cons.mp hmem with h | h
      · subst h
        rw [List.map_cons, List.filter_cons]
        have hpred : ((compileEdge target component rule src).inputs =
            [pathStr src]) = True := by
          simp [compileEdge]
        simp only [hpred]
        rw [if_pos (by decide)]
        rw [compile_filter_not_mem target component rule as (pathStr src) hnd2.1]
        simp [compileEdge, objpath, buildpath]
      · have hne : pathStr a ≠ pathStr src := by
          intro hc
          exact hnd2.1 (hc ▸ List.mem_map_of_mem pathStr h)
        rw [List.map_cons, List.filter_cons]
        have hpred : ((compileEdge target component rule a).inputs =
            [pathStr src]) = False := by
          simp [compileEdge]
          intro hc
          exact hne hc
        simp only [hpred]
        simpa using ih hnd2.2 h
  · have h0 := List.take_append_drop component.dirname.length src
    rw [hpre] at h0
    exact h0

/-- Witness for C4 on a concrete component with two sources. -/
theorem compile_edge_spec_witness :
    (compile demoTarget compCore "cc" [["core", "a.c"], ["core", "b.c"]]).1.filter
        (fun e => e.inputs = [pathStr ["core", "a.c"]]) =
      [{ out := pathStr (demoTarget.builddir ++ [compCore.id, "obj"] ++
            mapLast withSuffixO (List.drop compCore.dirname.length ["core", "a.c"]))
         rule := "cc"
         inputs := [pathStr ["core", "a.c"]]
         implicit := []
         orderOnly := (demoTarget.tools "cc").files }] :=
  (compile_edge_spec demoTarget compCore "cc" [["core", "a.c"], ["core", "b.c"]]
    ["core", "a.c"] (by decide) (by decide) (by decide)).1

theorem compile_rule_mem (target : Target) (component : Component) (rule : String)
    (srcs : List (List String)) :
    ∀ e ∈ (compile target component rule srcs).1, e.rule = rule := by
  intro e he
  obtain ⟨src, _, hsrc⟩ := List.mem_map.mp he
  rw [← hsrc]
  rfl

theorem compileRes_rule_mem (target : Target) (component : Component)
    (resFiles : List (List String)) :
    ∀ e ∈ (compileRes target component resFiles).1, e.rule = "cp" := by
  intro e he
  obtain ⟨r, _, hr⟩ := List.mem_map.mp he
  rw [← hr]

theorem collectLibsAux_error (registry : Registry) (target : Target)
    (component : Component) :
    ∀ deps : List String,
    (∀ r ∈ deps, (registry.lookup r).isSome) →
    (∃ r ∈ deps, r ≠ component.id ∧
      (registry.lookup r).map Component.type ≠ some Kind.lib) →
    ∃ r ∈ deps, r ≠ component.id ∧
      (registry.lookup r).map Component.type ≠ some Kind.lib ∧
      collectLibsAux registry target component deps =
        .error ("Component " ++ r ++ " is not a library") := by
  intro deps
  induction deps with
  | nil =>
    rintro _ ⟨r, hr, _⟩
    cases hr
  | cons a rest ih =>
    intro hlook hbad
    obtain ⟨req, hreq⟩ :=
      Option.isSome_iff_exists.mp (hlook a (List.mem_cons_self a rest))
    by_cases ha : a ≠ component.id ∧
        (registry.lookup a).map Component.type ≠ some Kind.lib
    · refine ⟨a, List.mem_cons_self a rest, ha.1, ha.2, ?_⟩
      have htype : ¬ req.type = Kind.lib := by
        intro hc
        apply ha.2
        rw [hreq]
        simp [hc]
      unfold collectLibsAux
      rw [hreq]
      dsimp only
      rw [if_neg ha.1, if_neg htype]
    · have hrest : ∃ r ∈ rest, r ≠ component.id ∧
          (registry.lookup r).map Component.type ≠ some Kind.lib := by
        obtain ⟨r, hr, hprops⟩ := hbad
        rcases List.mem_cons.mp hr with h | h
        · exact absurd (h ▸ hprops) ha
        · exact ⟨r, h, hprops⟩
      obtain ⟨r, hr, hrid, hrt, herr⟩ :=
        ih (fun x hx => hlook x (List.mem_cons_of_mem a hx)) hrest
      refine ⟨r, List.mem_cons_of_mem a hr, hrid, hrt, ?_⟩
      unfold collectLibsAux
      rw [hreq]
      dsimp only
      rw [not_and_or] at ha
      by_cases hid : a = component.id
      · rw [if_pos hid]
        exact herr
      · rw [if_neg hid]
        have hlib : req.type = Kind.lib := by
          rcases ha with h | h
          · exact absurd hid (by simpa using h)
          · rw [not_not] at h
            rw [hreq] at h
            simpa using h
        rw [if_pos hlib, herr]

/-- Claim C1: when a component's resolved dependency list for a target
contains an id other than its own whose lookup yields a non-library
component, `collectLibs` raises the fatal error naming that id instead of
returning a dependency-artifact list, `link` propagates the same error, and
the component's terminal archive/link edge is not among the emitted edges. -/
theorem link_nonlib_dependency_error (registry : Registry) (target : Target)
    (component : Component) (deps : List String)
    (srcsC srcsCxx srcsAs resFiles : List (List String))
    (hres : component.resolvedFor target.id = some deps)
    (hlook : ∀ r ∈ deps, (registry.lookup r).isSome)
    (hbad : ∃ r ∈ deps, r ≠ component.id ∧
      (registry.lookup r).map Component.type ≠ some Kind.lib) :
    ∃ r ∈ deps, r ≠ component.id ∧
      (registry.lookup r).map Component.type ≠ some Kind.lib ∧
      collectLibs registry target component =
        .error ("Component " ++ r ++ " is not a library") ∧
      (link registry target component srcsC srcsCxx srcsAs resFiles).2 =
        .error ("Component " ++ r ++ " is not a library") ∧
      ∀ e ∈ (link registry target component srcsC srcsCxx srcsAs resFiles).1,
        e.rule ≠ "ar" ∧ e.rule ≠ "ld" := by
  obtain ⟨r, hr, hrid, hrt, herr⟩ := collectLibsAux_error registry target component
    deps hlook hbad
  have hcoll : collectLibs registry target component =
      .error ("Component " ++ r ++ " is not a library") := by
    unfold collectLibs
    rw [hres]
    exact herr
  have hlink : link registry target component srcsC srcsCxx srcsAs resFiles =
      ((compile target component "cc" srcsC).1 ++
        (compile target component "cxx" srcsCxx).1 ++
        (compile target component "as" srcsAs).1 ++
        (compileRes target component resFiles).1,
       .error ("Component " ++ r ++ " is not a library")) := by
    unfold link
    rw [hcoll]
  refine ⟨r, hr, hrid, hrt, hcoll, by rw [hlink], ?_⟩
  intro e he
  rw [hlink] at he
  simp only [List.mem_append] at he
  rcases he with ((he | he) | he) | he
  · rw [compile_rule_mem target component "cc" srcsC e he]
    exact ⟨by decide, by decide⟩
  · rw [compile_rule_mem target component "cxx" srcsCxx e he]
    exact ⟨by decide, by decide⟩
  · rw [compile_rule_mem target component "as" srcsAs e he]
    exact ⟨by decide, by decide⟩
  · rw [compileRes_rule_mem target component resFiles e he]
    exact ⟨by decide, by decide⟩

/-- Witness for C1: the executable `user` lists the executable `tool` in its
resolved dependencies; the planner fails naming `tool` and no terminal edge is
emitted. -/
theorem link_nonlib_dependency_error_witness :
    ∃ r ∈ ["user", "tool"], r ≠ compUser.id ∧
      (demoRegistry.lookup r).map Component.type ≠ some Kind.lib ∧
      collectLibs demoRegistry demoTarget compUser =
        .error ("Component " ++ r ++ " is not a library") ∧
      (link demoRegistry demoTarget compUser [] [] [] []).2 =
        .error ("Component " ++ r ++ " is not a library") ∧
      ∀ e ∈ (link demoRegistry demoTarget compUser [] [] [] []).1,
        e.rule ≠ "ar" ∧ e.rule ≠ "ld" :=
  link_nonlib_dependency_error demoRegistry demoTarget compUser ["user", "tool"]
    [] [] [] [] rfl (by decide) (by decide)

/-- Claim C8 counterexample: the two distinct sources `app/foo.c` and
`app/foo.cpp` of the same component are mapped to the same intermediate
object path `build/demo/app/obj/foo.o`. -/
theorem objpath_collision :
    (["app", "foo.c"] : List String) ≠ ["app", "foo.cpp"] ∧
    objpath demoTarget compApp ["app", "foo.c"] =
      objpath demoTarget compApp ["app", "foo.cpp"] ∧
    objpath demoTarget compApp ["app", "foo.c"] =
      ["build", "demo", "app", "obj", "foo.o"] := by
  refine ⟨by decide, by decide, by decide⟩

/-- Claim C8 as amended: two distinct discovered sources of a component whose
file names carry the same extension are mapped to distinct intermediate object
paths; only sources that agree after the extension is replaced by `.o` (such
as `foo.c` and `foo.cpp`) collide. -/
theorem objpath_injective_same_suffix (target : Target) (component : Component)
    (src1 src2 : List String)
    (h1 : src1.take component.dirname.length = component.dirname)
    (h2 : src2.take component.dirname.length = component.dirname)
    (hl1 : component.dirname.length < src1.length)
    (hl2 : component.dirname.length < src2.length)
    (hsuf : nameSuffix (src1.getLastD "") = nameSuffix (src2.getLastD ""))
    (hne : src1 ≠ src2) :
    objpath target component src1 ≠ objpath target component src2 := by
  intro heq
  unfold objpath buildpath at heq
  have heq2 := List.append_cancel_left heq
  have heq3 : mapLast withSuffixO (src1.drop component.dirname.length) =
      mapLast withSuffixO (src2.drop component.dirname.length) := by
    simpa only [List.cons.injEq, true_and] using heq2
  have hsp1 : component.dirname ++ src1.drop component.dirname.length = src1 := by
    have h0 := List.take_append_drop component.dirname.length src1
    rw [h1] at h0
    exact h0
  have hsp2 : component.dirname ++ src2.drop component.dirname.length = src2 := by
    have h0 := List.take_append_drop component.dirname.length src2
    rw [h2] at h0
    exact h0
  have hne1 : src1.drop component.dirname.length ≠ [] := by
    apply List.ne_nil_of_length_pos
    rw [List.length_drop]
    omega
  have hne2 : src2.drop component.dirname.length ≠ [] := by
    apply List.ne_nil_of_length_pos
    rw [List.length_drop]
    omega
  have hg1 : src1.getLastD "" = (src1.drop component.dirname.length).getLastD "" := by
    conv_lhs => rw [← hsp1]
    exact getLastD_append_of_ne_nil "" hne1
  have hg2 : src2.getLastD "" = (src2.drop component.dirname.length).getLastD "" := by
    conv_lhs => rw [← hsp2]
    exact getLastD_append_of_ne_nil "" hne2
  have hrel := mapLast_withSuffixO_inj (src1.drop component.dirname.length)
    (src2.drop component.dirname.length) hne1 hne2
    (by rw [← hg1, ← hg2]; exact hsuf) heq3
  apply hne
  calc src1 = component.dirname ++ src1.drop component.dirname.length := hsp1.symm
    _ = component.dirname ++ src2.drop component.dirname.length := by rw [hrel]
    _ = src2 := hsp2

/-- Witness for the amended C8 on two same-extension sources of a component. -/
theorem objpath_injective_same_suffix_witness :
    objpath demoTarget compApp ["app", "a.c"] ≠ objpath demoTarget compApp ["app", "b.c"] :=
  objpath_injective_same_suffix demoTarget compApp ["app", "a.c"] ["app", "b.c"]
    (by decide) (by decide) (by decide) (by decide) (by decide) (by decide)

end Builder
